import Mathlib

set_option maxHeartbeats 1600000

/-!
Shallow embedding of `tecalc.hpp` (tiny embedded calculator, namespace
`tecalc`), instantiated at `tecalc::calculator = basic_calculator<int, 2>`.
The value type is modelled as the unbounded integer `Int`; the template
parameter `MaxArgNum` is fixed to its default `2`, as in `tecalc::calculator`.
The C++ parser's mutable members (`ptr_`/`last_`, `vartbl_`, `functbl_`,
`last_id_`, `last_errc_`) become the fields of an explicit state record that
every member function threads through.  The `while`/`do-while` loops of the
grammar functions become fuelled recursive helpers; the public `eval` supplies
fuel `16 * (length + 1)`, far above the recursion depth the grammar can reach
on an input of that length (each extra level of call depth past a constant
consumes at least one input character).
-/

namespace Tecalc

/-- `enum class errc` of tecalc.hpp. -/
inductive errc where
  | syntax_error
  | invalid_literal
  | unknown_identifier
  | arg_num_mismatch
  | divide_by_zero
  deriving DecidableEq, Repr

/-- `func_type = impl::func_variant<int, 2>::type`: a variant holding a
function pointer of arity 0, 1 or 2 (`int(*)()`, `int(*)(int)`,
`int(*)(int,int)`); the variant's alternative index is the arity. -/
inductive func_type where
  | fn0 (g : Int)
  | fn1 (g : Int → Int)
  | fn2 (g : Int → Int → Int)

/-- `std::variant::index()` of a `func_type` value. -/
def func_type.index : func_type → Nat
  | .fn0 _ => 0
  | .fn1 _ => 1
  | .fn2 _ => 2

/-- `std::get<N>(fn)(args[0], ..., args[N-1])`: applies the alternative at
index `N`.  `std::get` on the wrong alternative throws; every call site is
guarded by `index() == args.size()`, so the default `0` arms are dead. -/
def func_type.getApply : func_type → Nat → List Int → Int
  | .fn0 g, 0, _ => g
  | .fn1 g, 1, args => g (args.getD 0 0)
  | .fn2 g, 2, args => g (args.getD 0 0) (args.getD 1 0)
  | _, _, _ => 0

/-- `impl::invoker<Value, FnType, N>::invoke`: compares `args.size()` with
each arity `N, N-1, ..., 0` and dispatches to `std::get<N>(fn)`.  The final
`return {}` of the `N = 0` specialisation ("not reachable") is the value `0`. -/
def invoker_invoke : Nat → func_type → List Int → Int
  | n + 1, fn, args =>
      if args.length = n + 1 then fn.getApply (n + 1) args
      else invoker_invoke n fn args
  | 0, fn, args =>
      if args.length = 0 then fn.getApply 0 args else 0

/-- `basic_calculator<int, 2>::kMaxArgNum`. -/
def kMaxArgNum : Nat := 2

/-- `std::map<std::string, V>::find`, on the association-list model of the
map (keys are unique under the bind operations below). -/
def map_find {α : Type} : List (String × α) → String → Option α
  | [], _ => none
  | (n, v) :: rest, k => if n = k then some v else map_find rest k

/-- `std::map::erase(name)`. -/
def map_erase {α : Type} (tbl : List (String × α)) (name : String) :
    List (String × α) :=
  tbl.filter (fun p => p.1 ≠ name)

/-- `map[name] = val`: afterwards the key `name` maps to `val` and every
other key maps to what it mapped to before.  Modelled as remove-then-append;
the tables are only ever read through `map_find` (`std::map::find`), for
which this agrees with the C++ map's overwrite-in-place. -/
def map_insert {α : Type} (tbl : List (String × α)) (name : String) (val : α) :
    List (String × α) :=
  map_erase tbl name ++ [(name, val)]

/-- The two symbol tables of a `basic_calculator` instance. -/
structure Calc where
  vartbl : List (String × Int)
  functbl : List (String × func_type)

/-- `basic_calculator::bind_var`: `functbl_.erase(name); vartbl_[name] = val;`. -/
def bind_var (c : Calc) (name : String) (val : Int) : Calc :=
  { vartbl := map_insert c.vartbl name val
    functbl := map_erase c.functbl name }

/-- `basic_calculator::bind_fn`: `vartbl_.erase(name); functbl_[name] = fn;`. -/
def bind_fn (c : Calc) (name : String) (fn : func_type) : Calc :=
  { vartbl := map_erase c.vartbl name
    functbl := map_insert c.functbl name fn }

/-- The mutable members of `basic_calculator` during one `eval` call:
the cursor `[ptr_, last_)` (as the remaining input), the two tables, the
last parsed identifier (`std::string_view`, empty = none pending) and the
last error code (`errc{}` = unset, modelled as `none`). -/
structure St where
  input : List Char
  vartbl : List (String × Int)
  functbl : List (String × func_type)
  last_id : String
  last_errc : Option errc

/-- The whitespace loop of `eat_ws`: skip consecutive `' '` and `'\t'`. -/
def skip_ws : List Char → List Char
  | c :: rest => if c = ' ' ∨ c = '\t' then skip_ws rest else c :: rest
  | [] => []

/-- `basic_calculator::eat_ws`: skip whitespace, return `ptr_ != last_`. -/
def eat_ws (st : St) : Bool × St :=
  let rest := skip_ws st.input
  (!rest.isEmpty, { st with input := rest })

/-- The pointer walk of `consume_str`: `some rest` when `s` is a prefix of
the input, leaving `rest` past it; `none` (cursor untouched) otherwise. -/
def strPrefix : List Char → List Char → Option (List Char)
  | [], l => some l
  | _ :: _, [] => none
  | s :: ss, c :: cs => if c = s then strPrefix ss cs else none

/-- `basic_calculator::consume_str`: consume `s` if the input starts with it. -/
def consume_str (s : List Char) (st : St) : Bool × St :=
  match strPrefix s st.input with
  | some rest => (true, { st with input := rest })
  | none => (false, st)

/-- `basic_calculator::consume_ch`: consume one expected character. -/
def consume_ch (ch : Char) (st : St) : Bool × St :=
  match st.input with
  | c :: rest => if c = ch then (true, { st with input := rest }) else (false, st)
  | [] => (false, st)

/-- `basic_calculator::consume_any`: consume the next character when it is
one of `chs` and return it; C++ returns `char{}` for no match, modelled as
`none`. -/
def consume_any (chs : List Char) (st : St) : Option Char × St :=
  match st.input with
  | c :: rest => if c ∈ chs then (some c, { st with input := rest }) else (none, st)
  | [] => (none, st)

/-- `basic_calculator::isdigit`. -/
def isdigit (x : Char) : Bool := '0' ≤ x ∧ x ≤ '9'

/-- `basic_calculator::isalpha`. -/
def isalpha (x : Char) : Bool := ('a' ≤ x ∧ x ≤ 'z') ∨ ('A' ≤ x ∧ x ≤ 'Z')

/-- `basic_calculator::isalnum`. -/
def isalnum (x : Char) : Bool := isdigit x || isalpha x

/-- Whether `c` is a digit `std::from_chars` accepts in base `base`
(`0-9`, `a-z`, `A-Z`, value below the base). -/
def isBaseDigit (base : Nat) (c : Char) : Bool :=
  (isdigit c && c.toNat - '0'.toNat < base) ||
  (('a' ≤ c && c ≤ 'z') && 10 + (c.toNat - 'a'.toNat) < base) ||
  (('A' ≤ c && c ≤ 'Z') && 10 + (c.toNat - 'A'.toNat) < base)

/-- The numeric value of a digit character accepted by `isBaseDigit`. -/
def digitVal (c : Char) : Nat :=
  if isdigit c then c.toNat - '0'.toNat
  else if 'a' ≤ c && c ≤ 'z' then 10 + (c.toNat - 'a'.toNat)
  else 10 + (c.toNat - 'A'.toNat)

/-- `std::from_chars(ptr_, last_, val, base)` for a signed integer type: an
optional leading `'-'`, then one or more digits of `base` (maximal run);
with the unbounded value type there is no out-of-range failure.  On failure
(`none`) the cursor is unchanged; on success it stands past the digits. -/
def from_chars (base : Nat) (st : St) : Option Int × St :=
  let (neg, s) :=
    if st.input.head? = some '-' then (true, st.input.tail)
    else (false, st.input)
  let ds := s.takeWhile (isBaseDigit base)
  if ds.isEmpty then (none, st)
  else
    let v : Int := Int.ofNat (ds.foldl (fun a c => a * base + digitVal c) 0)
    (some (if neg then -v else v),
     { st with input := s.dropWhile (isBaseDigit base) })

/-- `basic_calculator::parse_int`: the `0x`/`0X`/`0b`/`0B` prefix selects the
base (default 10), then `from_chars` reads the number.  A following
alphanumeric character rejects the literal.  On the failure paths the cursor
stays where `from_chars` started (just past any base prefix), since
`ptr_ = p` in the C++ only runs after both checks. -/
def parse_int (st0 : St) : Option Int × St :=
  let (base, st) :=
    match consume_str ['0', 'x'] st0 with
    | (true, st) => (16, st)
    | (false, _) =>
      match consume_str ['0', 'X'] st0 with
      | (true, st) => (16, st)
      | (false, _) =>
        match consume_str ['0', 'b'] st0 with
        | (true, st) => (2, st)
        | (false, _) =>
          match consume_str ['0', 'B'] st0 with
          | (true, st) => (2, st)
          | (false, _) => (10, st0)
  match from_chars base st with
  | (none, _) => (none, { st with last_errc := some .invalid_literal })
  | (some v, st') =>
    match st'.input with
    | c :: _ =>
        if isalnum c then (none, { st with last_errc := some .invalid_literal })
        else (some v, st')
    | [] => (some v, st')

/-- `basic_calculator::parse_id`: an identifier `alpha alnum*`, or `none`
without consuming anything.  The empty-input arm is dead: the caller
(`eval_primary`) reaches `parse_id` only after `eat_ws` returned true. -/
def parse_id (st : St) : Option String × St :=
  match st.input with
  | [] => (none, st)
  | c :: _ =>
    if !isalpha c then (none, st)
    else (some (String.mk (st.input.takeWhile isalnum)),
          { st with input := st.input.dropWhile isalnum })

mutual

/-- `basic_calculator::eval_primary`: `'(' addsub ')' | integer | identifier`.
The parenthesis arm returns the inner result (which may itself be failure)
after consuming `')'`, exactly as the C++ does.  The `[]` arm of the inner
match is dead (`eat_ws` just returned true). -/
def eval_primary : Nat → St → Option Int × St
  | 0, st => (none, st)
  | fuel + 1, st =>
    match eat_ws st with
    | (false, st) => (none, st)
    | (true, st) =>
      match consume_ch '(' st with
      | (true, st) =>
        let (res, st) := eval_addsub fuel st
        match eat_ws st with
        | (false, st) => (none, st)
        | (true, st) =>
          match consume_ch ')' st with
          | (false, st) => (none, st)
          | (true, st) => (res, st)
      | (false, st) =>
        match st.input with
        | [] => (none, st)
        | c :: _ =>
          if isdigit c then parse_int st
          else
            match parse_id st with
            | (none, st) => (none, st)
            | (some name, st) =>
              let st := { st with last_id := name }
              match map_find st.vartbl name with
              | none => (none, { st with last_errc := some .unknown_identifier })
              | some v => (some v, { st with last_id := "" })

/-- The argument-collecting `while (eat_ws())` loop of `eval_postfix`:
consume `','` or `')'` if next; stop at `')'` (or at end of input, when
`eat_ws` turns false); otherwise evaluate one `addsub` argument and push it. -/
def evalArgsLoop : Nat → List Int → St → Option (List Int) × St
  | 0, _, st => (none, st)
  | fuel + 1, args, st =>
    match eat_ws st with
    | (false, st) => (some args, st)
    | (true, st) =>
      match consume_any [',', ')'] st with
      | (some ')', st) => (some args, st)
      | (_, st) =>
        match eval_addsub fuel st with
        | (none, st) => (none, st)
        | (some a, st) => evalArgsLoop fuel (args ++ [a]) st

/-- `basic_calculator::eval_postfix` (named in camel case here):
`primary {'(' arguments? ')'}?` with the variable/function disambiguation
on the pending identifier `last_id_`. -/
def evalPostfix : Nat → St → Option Int × St
  | 0, st => (none, st)
  | fuel + 1, st =>
    let (res, st) := eval_primary fuel st
    if res = none ∧ st.last_errc ≠ some .unknown_identifier then (none, st)
    else
      let (_, st) := eat_ws st
      match consume_ch '(' st with
      | (true, st) =>
        if st.last_id.isEmpty then
          (none, { st with last_errc := some .syntax_error })
        else
          match map_find st.functbl st.last_id with
          | none => (none, { st with last_errc := some .unknown_identifier })
          | some fn =>
            let st := { st with last_id := "" }
            match evalArgsLoop fuel [] st with
            | (none, st) => (none, st)
            | (some args, st) =>
              if fn.index ≠ args.length then
                (none, { st with last_errc := some .arg_num_mismatch })
              else (some (invoker_invoke kMaxArgNum fn args), st)
      | (false, st) =>
        if ¬st.last_id.isEmpty ∧ (map_find st.functbl st.last_id).isSome then
          (none, { st with last_errc := some .syntax_error })
        else (res, st)

/-- The sign-collecting `do { ... } while (op)` loop of `eval_unary`:
each pass requires non-empty input after whitespace, consumes an optional
`'+'`/`'-'` and toggles `neg` on `'-'`; stops when no sign was consumed. -/
def unarySigns : Nat → Bool → St → Option Bool × St
  | 0, _, st => (none, st)
  | fuel + 1, neg, st =>
    match eat_ws st with
    | (false, st) => (none, st)
    | (true, st) =>
      match consume_any ['+', '-'] st with
      | (none, st) => (some neg, st)
      | (some op, st) => unarySigns fuel (xor neg (op = '-')) st

/-- `basic_calculator::eval_unary`: `{'-'|'+'}* primary` (through postfix);
negates the result when the count of `'-'` signs is odd. -/
def eval_unary : Nat → St → Option Int × St
  | 0, st => (none, st)
  | fuel + 1, st =>
    match unarySigns (fuel + 1) false st with
    | (none, st) => (none, st)
    | (some neg, st) =>
      match evalPostfix fuel st with
      | (some v, st) => (some (if neg then -v else v), st)
      | (none, st) => (none, st)

/-- The `while (eat_ws())` loop of `eval_muldiv`.  `/` and `%` are the C++
`int` operators: truncating division `Int.tdiv` and remainder `Int.tmod`,
guarded by the divide-by-zero check on the right operand. -/
def muldivLoop : Nat → Int → St → Option Int × St
  | 0, _, st => (none, st)
  | fuel + 1, res, st =>
    match eat_ws st with
    | (false, st) => (some res, st)
    | (true, st) =>
      match consume_any ['*', '/', '%'] st with
      | (none, st) => (some res, st)
      | (some op, st) =>
        match eval_unary fuel st with
        | (none, st) => (none, st)
        | (some rhs, st) =>
          if op = '*' then muldivLoop fuel (res * rhs) st
          else if rhs = 0 then (none, { st with last_errc := some .divide_by_zero })
          else if op = '/' then muldivLoop fuel (res.tdiv rhs) st
          else muldivLoop fuel (res.tmod rhs) st

/-- `basic_calculator::eval_muldiv`: `unary {'*'|'/'|'%' unary}*`. -/
def eval_muldiv : Nat → St → Option Int × St
  | 0, st => (none, st)
  | fuel + 1, st =>
    match eval_unary fuel st with
    | (none, st) => (none, st)
    | (some lhs, st) => muldivLoop fuel lhs st

/-- The `while (eat_ws())` loop of `eval_addsub`. -/
def addsubLoop : Nat → Int → St → Option Int × St
  | 0, _, st => (none, st)
  | fuel + 1, res, st =>
    match eat_ws st with
    | (false, st) => (some res, st)
    | (true, st) =>
      match consume_any ['+', '-'] st with
      | (none, st) => (some res, st)
      | (some op, st) =>
        match eval_muldiv fuel st with
        | (none, st) => (none, st)
        | (some rhs, st) =>
          addsubLoop fuel (if op = '+' then res + rhs else res - rhs) st

/-- `basic_calculator::eval_addsub`: `muldiv {'+'|'-' muldiv}*`. -/
def eval_addsub : Nat → St → Option Int × St
  | 0, st => (none, st)
  | fuel + 1, st =>
    match eval_muldiv fuel st with
    | (none, st) => (none, st)
    | (some lhs, st) => addsubLoop fuel lhs st

end

/-- The fuel the public `eval` supplies: an over-approximation of the call
depth the grammar can reach on `expr` (each level of nesting past a small
constant consumes at least one character of the input). -/
def fuel0 (expr : List Char) : Nat := 16 * (expr.length + 1)

/-- `basic_calculator::eval(expr, ec)`: reset the cursor and the transient
markers, run `eval_addsub`, treat unconsumed non-whitespace as failure, and
on failure report `last_errc_` if set, else the generic syntax error.  The
second component models the out-parameter `ec` (`none` = not set = success). -/
def eval (c : Calc) (expr : List Char) : Option Int × Option errc :=
  let st : St := ⟨expr, c.vartbl, c.functbl, "", none⟩
  let (res, st) := eval_addsub (fuel0 expr) st
  let (ws, st) := eat_ws st
  let res := if ws then none else res
  match res with
  | some v => (some v, none)
  | none =>
    (none, some (match st.last_errc with | some e => e | none => .syntax_error))

/-- `eval` on a string literal. -/
def evalS (c : Calc) (s : String) : Option Int × Option errc := eval c s.data

/-- A calculator with no bindings. -/
def calc0 : Calc := ⟨[], []⟩

/-- The digit character for the value `d < 16`: `0`-`9`, then lowercase
`a`-`f`. -/
def natDigitChar (d : Nat) : Char :=
  if d < 10 then Char.ofNat ('0'.toNat + d) else Char.ofNat ('a'.toNat + (d - 10))

/-- Big-endian digits of `n` in base `b`, accumulated onto `acc`; the fuel
argument bounds the recursion (`n` itself is always enough). -/
def digitsAux (b : Nat) : Nat → Nat → List Char → List Char
  | 0, _, acc => acc
  | f + 1, n, acc =>
    if n = 0 then acc else digitsAux b f (n / b) (natDigitChar (n % b) :: acc)

/-- The digit string of `n` in base `b` (`"0"` for zero). -/
def natRepr (b n : Nat) : List Char :=
  if n = 0 then ['0'] else digitsAux b n n []

/-- One call to `bind_var` or `bind_fn`. -/
inductive BindOp where
  | bvar (name : String) (val : Int)
  | bfn (name : String) (fn : func_type)

/-- Apply one bind operation. -/
def applyBind (c : Calc) : BindOp → Calc
  | .bvar n v => bind_var c n v
  | .bfn n f => bind_fn c n f

/-- Run a sequence of bind operations on the fresh calculator. -/
def runBinds (ops : List BindOp) : Calc := ops.foldl applyBind calc0

/-- No name is bound in both symbol tables. -/
def NameDisjoint (c : Calc) : Prop :=
  ∀ n, ¬((map_find c.vartbl n).isSome ∧ (map_find c.functbl n).isSome)

/-- A calculator with one arity-0 function `f` returning 42. -/
def calcF : Calc := bind_fn calc0 "f" (.fn0 42)

/-- A calculator with one arity-0 function `nop` returning 42. -/
def calcNop : Calc := bind_fn calc0 "nop" (.fn0 42)

/-- The calculator of the unit tests' "functions" case: `nop` (arity 0),
`suc` (arity 1), `add` (arity 2). -/
def calcFns : Calc :=
  bind_fn (bind_fn (bind_fn calc0 "nop" (.fn0 42))
    "suc" (.fn1 (fun a => a + 1))) "add" (.fn2 (fun a b => a + b))

/-- The calculator of the unit tests' namespace case: variable `v = 1`,
identity function `f` of arity 1. -/
def calcVF : Calc := bind_fn (bind_var calc0 "v" 1) "f" (.fn1 (fun x => x))

/-! ### Lemmas about the symbol tables -/

lemma map_find_erase_self {α : Type} (tbl : List (String × α)) (n : String) :
    map_find (map_erase tbl n) n = none := by
  induction tbl with
  | nil => rfl
  | cons p rest ih =>
    rcases p with ⟨k, w⟩
    by_cases h : k = n
    · simpa [map_erase, List.filter_cons, h] using ih
    · simpa [map_erase, List.filter_cons, h, map_find] using ih

lemma map_find_erase_ne {α : Type} (tbl : List (String × α)) {m n : String}
    (h : m ≠ n) : map_find (map_erase tbl n) m = map_find tbl m := by
  induction tbl with
  | nil => rfl
  | cons p rest ih =>
    rcases p with ⟨k, w⟩
    by_cases hk : k = n
    · subst hk
      simpa [map_erase, List.filter_cons, map_find, Ne.symm h] using ih
    · simp [map_erase, List.filter_cons, hk, map_find] at ih ⊢
      rw [ih]

lemma map_find_append_single_self {α : Type} (tbl : List (String × α))
    (n : String) (v : α) (hp : map_find tbl n = none) :
    map_find (tbl ++ [(n, v)]) n = some v := by
  induction tbl with
  | nil => simp [map_find]
  | cons p rest ih =>
    rcases p with ⟨k, w⟩
    by_cases hk : k = n
    · subst hk
      simp [map_find] at hp
    · have hp' : map_find rest n = none := by
        simpa [map_find, hk] using hp
      simpa [map_find, hk] using ih hp'

lemma map_find_append_single_ne {α : Type} (tbl : List (String × α))
    {m n : String} (v : α) (h : m ≠ n) :
    map_find (tbl ++ [(n, v)]) m = map_find tbl m := by
  induction tbl with
  | nil => simp [map_find, Ne.symm h]
  | cons p rest ih =>
    rcases p with ⟨k, w⟩
    by_cases hm : k = m
    · subst hm
      simp [map_find, ih]
    · simpa [map_find, hm] using ih

lemma map_find_insert_self {α : Type} (tbl : List (String × α)) (n : String)
    (v : α) : map_find (map_insert tbl n v) n = some v := by
  unfold map_insert
  exact map_find_append_single_self _ n v (map_find_erase_self tbl n)

lemma map_find_insert_ne {α : Type} (tbl : List (String × α)) {m n : String}
    (v : α) (h : m ≠ n) : map_find (map_insert tbl n v) m = map_find tbl m := by
  unfold map_insert
  rw [map_find_append_single_ne _ v h, map_find_erase_ne _ h]

lemma nameDisjoint_calc0 : NameDisjoint calc0 := by
  intro n h
  simp [calc0, map_find] at h

lemma nameDisjoint_bind_var (c : Calc) (h : NameDisjoint c) (n : String)
    (v : Int) : NameDisjoint (bind_var c n v) := by
  intro m hm
  rcases hm with ⟨hv, hf⟩
  by_cases hmn : m = n
  · subst hmn
    rw [show (bind_var c m v).functbl = map_erase c.functbl m from rfl,
      map_find_erase_self] at hf
    simp at hf
  · rw [show (bind_var c n v).vartbl = map_insert c.vartbl n v from rfl,
      map_find_insert_ne _ _ hmn] at hv
    rw [show (bind_var c n v).functbl = map_erase c.functbl n from rfl,
      map_find_erase_ne _ hmn] at hf
    exact h m ⟨hv, hf⟩

lemma nameDisjoint_bind_fn (c : Calc) (h : NameDisjoint c) (n : String)
    (f : func_type) : NameDisjoint (bind_fn c n f) := by
  intro m hm
  rcases hm with ⟨hv, hf⟩
  by_cases hmn : m = n
  · subst hmn
    rw [show (bind_fn c m f).vartbl = map_erase c.vartbl m from rfl,
      map_find_erase_self] at hv
    simp at hv
  · rw [show (bind_fn c n f).vartbl = map_erase c.vartbl n from rfl,
      map_find_erase_ne _ hmn] at hv
    rw [show (bind_fn c n f).functbl = map_insert c.functbl n f from rfl,
      map_find_insert_ne _ _ hmn] at hf
    exact h m ⟨hv, hf⟩

lemma nameDisjoint_runBinds_from (ops : List BindOp) :
    ∀ c : Calc, NameDisjoint c → NameDisjoint (ops.foldl applyBind c) := by
  induction ops with
  | nil => exact fun c h => h
  | cons op rest ih =>
    intro c h
    rcases op with ⟨n, v⟩ | ⟨n, f⟩
    · exact ih _ (nameDisjoint_bind_var c h n v)
    · exact ih _ (nameDisjoint_bind_fn c h n f)

/-! ### C4 -/

/-- C4: for every sequence of `bind_var`/`bind_fn` operations each name is
bound in at most one of the two symbol tables; `bind_fn` removes any variable
binding of the name before installing the function binding (so afterwards the
name cannot resolve as a variable), and `bind_var` symmetrically removes any
function binding. -/
theorem c4_single_namespace :
    (∀ ops : List BindOp, NameDisjoint (runBinds ops))
  ∧ (∀ (c : Calc) (n : String) (f : func_type),
      map_find (bind_fn c n f).vartbl n = none ∧
      map_find (bind_fn c n f).functbl n = some f)
  ∧ (∀ (c : Calc) (n : String) (v : Int),
      map_find (bind_var c n v).functbl n = none ∧
      map_find (bind_var c n v).vartbl n = some v) := by
  refine ⟨fun ops => nameDisjoint_runBinds_from ops calc0 nameDisjoint_calc0,
    fun c n f => ⟨map_find_erase_self _ _, map_find_insert_self _ _ _⟩,
    fun c n v => ⟨map_find_erase_self _ _, map_find_insert_self _ _ _⟩⟩

/-! ### C1 -/

/-- C1 counterexample: on `"f() 1"` (with `f` bound as an arity-0 function)
the grammar parse succeeds with the non-whitespace `'1'` left unconsumed, yet
`eval` reports `unknown_identifier` — recorded while the function name `f`
was first tried as a variable — not `syntax_error` as the claim states. -/
theorem c1_counterexample :
    eval_addsub (fuel0 "f() 1".data)
        ⟨"f() 1".data, [], [("f", func_type.fn0 42)], "", none⟩ =
      (some 42, ⟨['1'], [], [("f", func_type.fn0 42)], "",
        some errc.unknown_identifier⟩)
  ∧ (skip_ws ['1']).isEmpty = false
  ∧ evalS calcF "f() 1" = (none, some errc.unknown_identifier) :=
  ⟨rfl, by decide!, by decide!⟩

/-- C1 amended: if the grammar parse succeeds but unconsumed non-whitespace
remains, `eval` fails and reports `syntax_error` when no more specific error
was recorded during the parse; if one was recorded (as `unknown_identifier`
is whenever a function name was resolved, having first missed the variable
table), that classification is reported instead. -/
theorem c1_trailing_garbage (c : Calc) (expr : List Char) (v : Int) (st' : St)
    (h1 : eval_addsub (fuel0 expr) ⟨expr, c.vartbl, c.functbl, "", none⟩ =
      (some v, st'))
    (h2 : (skip_ws st'.input).isEmpty = false) :
    eval c expr =
      (none, some (match st'.last_errc with
        | some e => e
        | none => errc.syntax_error)) := by
  unfold eval
  simp [eat_ws, h1, h2]

/-- C1 witness: `"1 2"` parses as `1` with `'2'` left over, no specific error
recorded, and is reported as a syntax error. -/
theorem c1_trailing_garbage_witness :
    eval calc0 "1 2".data = (none, some errc.syntax_error) :=
  c1_trailing_garbage calc0 "1 2".data 1 ⟨['2'], [], [], "", none⟩ rfl rfl

/-! ### C2 -/

/-- C2 counterexample: `"nop("` opens a function-call argument list that is
never terminated by `')'`, yet with `nop` bound at arity 0 it evaluates to
`42` — the argument loop also stops at end of input. -/
theorem c2_counterexample : evalS calcNop "nop(" = (some 42, none) := by
  decide!

/-- C2 amended: unmatched grouping parentheses are syntax errors — `"(0"`,
`"0)"`, `"()"` (and variants) all fail with `syntax_error` — but a
function-call argument list whose `')'` is missing at end of input is not
rejected: the collected arguments are dispatched as usual. -/
theorem c2_unmatched_parens :
    evalS calc0 "(0" = (none, some errc.syntax_error)
  ∧ evalS calc0 "0)" = (none, some errc.syntax_error)
  ∧ evalS calc0 "()" = (none, some errc.syntax_error)
  ∧ evalS calc0 " (  " = (none, some errc.syntax_error)
  ∧ evalS calc0 "((0)" = (none, some errc.syntax_error)
  ∧ evalS calc0 "(0))" = (none, some errc.syntax_error)
  ∧ evalS calcFns "suc(1" = (some 2, none) := by
  refine ⟨by decide!, by decide!, by decide!, by decide!, by decide!, by decide!,
    by decide!⟩

/-! ### C3 -/

/-- C3 counterexample: `"add(1 2)"` deviates from the grammar
`arguments := addsub (',' addsub)*` (two adjacent arguments with no comma),
yet it is evaluated as a valid call returning `3`. -/
theorem c3_counterexample : evalS calcFns "add(1 2)" = (some 3, none) := by
  decide!

/-- C3 amended: grammar-conforming argument lists are accepted, but the
argument loop is more permissive than the grammar: the comma between
arguments is optional, a single leading comma is accepted, and the closing
`')'` may be missing at end of input; a comma not followed by a valid
argument expression still rejects the call (reported as the sticky
`unknown_identifier` recorded while the function name was resolved). -/
theorem c3_argument_list_shape :
    evalS calcFns "add(1,2)" = (some 3, none)
  ∧ evalS calcFns "nop()" = (some 42, none)
  ∧ evalS calcFns "add(1 2)" = (some 3, none)
  ∧ evalS calcFns "add(,1,2)" = (some 3, none)
  ∧ evalS calcFns "add(1,)" = (none, some errc.unknown_identifier)
  ∧ evalS calcFns "add(1,,2)" = (none, some errc.unknown_identifier)
  ∧ evalS calcFns "suc(1,,)" = (none, some errc.unknown_identifier) := by
  refine ⟨by decide!, by decide!, by decide!, by decide!, by decide!, by decide!,
    by decide!⟩

/-! ### C5 -/

lemma invoker_invoke_eq (fn : func_type) (args : List Int)
    (h : fn.index = args.length) :
    invoker_invoke kMaxArgNum fn args = fn.getApply fn.index args := by
  cases fn <;>
    simp [invoker_invoke, kMaxArgNum, func_type.index, ← h, func_type.getApply]

/-- C5: in a function call whose name resolved to the stored callable `fn`,
after the argument list is collected the call fails with `arg_num_mismatch`
(and the callable is not invoked: the result does not involve it) whenever
the argument count differs from the callable's arity (its variant index),
and otherwise the callable is applied to the collected argument values;
concretely, `nop(1)` against arity-0 `nop` fails with `arg_num_mismatch`. -/
theorem c5_arity_dispatch :
    (∀ (fuel : Nat) (st st₁ st₂ st₃ st₄ : St) (b : Bool) (nm : String)
       (fn : func_type) (args : List Int),
      eval_primary fuel st = (none, st₁) →
      st₁.last_errc = some errc.unknown_identifier →
      eat_ws st₁ = (b, st₂) →
      consume_ch '(' st₂ = (true, st₃) →
      st₃.last_id = nm →
      nm ≠ "" →
      map_find st₃.functbl nm = some fn →
      evalArgsLoop fuel [] { st₃ with last_id := "" } = (some args, st₄) →
      evalPostfix (fuel + 1) st =
        if fn.index = args.length then
          (some (fn.getApply fn.index args), st₄)
        else (none, { st₄ with last_errc := some errc.arg_num_mismatch }))
  ∧ evalS calcNop "nop(1)" = (none, some errc.arg_num_mismatch)
  ∧ evalS calcNop "nop()" = (some 42, none)
  ∧ evalS calcFns "suc(   )" = (none, some errc.arg_num_mismatch)
  ∧ evalS calcFns "suc(1,2)" = (none, some errc.arg_num_mismatch)
  ∧ evalS calcFns "add(  1)" = (none, some errc.arg_num_mismatch)
  ∧ evalS calcFns " suc ( 0 ) " = (some 1, none)
  ∧ evalS calcFns " add ( 1 , 2 ) " = (some 3, none) := by
  refine ⟨?_, by decide!, by decide!, by decide!, by decide!, by decide!,
    by decide!, by decide!⟩
  intro fuel st st₁ st₂ st₃ st₄ b nm fn args h1 h2 h3 h4 h5 h6 h7 h8
  have hne : nm.isEmpty = false :=
    Bool.eq_false_iff.mpr (fun h => h6 ((String.isEmpty_iff nm).mp h))
  simp only [evalPostfix, h1, h2, h3, h4, h5, h7, h8]
  by_cases hx : fn.index = args.length
  · simp [hne, hx, invoker_invoke_eq fn args hx]
  · simp [hne, hx]

/-- C5 witness: the dispatch theorem applied on the concrete call `nop(1)`
(arity 0, one argument): `arg_num_mismatch`. -/
theorem c5_arity_dispatch_witness :
    evalPostfix 9 ⟨"nop(1)".data, [], [("nop", func_type.fn0 42)], "", none⟩ =
      (none, ⟨[], [], [("nop", func_type.fn0 42)], "",
        some errc.arg_num_mismatch⟩) := by
  have h := c5_arity_dispatch.1 8
    ⟨"nop(1)".data, [], [("nop", func_type.fn0 42)], "", none⟩
    ⟨"(1)".data, [], [("nop", func_type.fn0 42)], "nop",
      some errc.unknown_identifier⟩
    ⟨"(1)".data, [], [("nop", func_type.fn0 42)], "nop",
      some errc.unknown_identifier⟩
    ⟨"1)".data, [], [("nop", func_type.fn0 42)], "nop",
      some errc.unknown_identifier⟩
    ⟨[], [], [("nop", func_type.fn0 42)], "", some errc.unknown_identifier⟩
    true "nop" (func_type.fn0 42) [1] rfl rfl rfl rfl rfl (by decide) rfl rfl
  simpa [func_type.index] using h

/-! ### C6 -/

/-- C6: a pending identifier (one that missed the variable table) that is not
followed by `'('` but is bound as a function makes `eval_postfix` fail
recording `syntax_error`; and a primary that already produced a value (no
pending identifier) followed by `'('` also fails recording `syntax_error`;
concrete instances at `eval` level with `v` a variable and `f` a function. -/
theorem c6_identifier_call_disambiguation :
    (∀ (fuel : Nat) (st st₁ st₂ st₃ : St) (b : Bool) (nm : String)
       (fn : func_type),
      eval_primary fuel st = (none, st₁) →
      st₁.last_errc = some errc.unknown_identifier →
      eat_ws st₁ = (b, st₂) →
      consume_ch '(' st₂ = (false, st₃) →
      st₃.last_id = nm →
      nm ≠ "" →
      map_find st₃.functbl nm = some fn →
      evalPostfix (fuel + 1) st =
        (none, { st₃ with last_errc := some errc.syntax_error }))
  ∧ (∀ (fuel : Nat) (st st₁ st₂ st₃ : St) (b : Bool) (v : Int),
      eval_primary fuel st = (some v, st₁) →
      eat_ws st₁ = (b, st₂) →
      consume_ch '(' st₂ = (true, st₃) →
      st₃.last_id = "" →
      evalPostfix (fuel + 1) st =
        (none, { st₃ with last_errc := some errc.syntax_error }))
  ∧ evalS calcVF "f" = (none, some errc.syntax_error)
  ∧ evalS calcVF "f+1" = (none, some errc.syntax_error)
  ∧ evalS calcVF "v()" = (none, some errc.syntax_error)
  ∧ evalS calcVF "(v)()" = (none, some errc.syntax_error)
  ∧ evalS calcVF "(f)(1)" = (none, some errc.syntax_error) := by
  refine ⟨?_, ?_, by decide!, by decide!, by decide!, by decide!, by decide!⟩
  · intro fuel st st₁ st₂ st₃ b nm fn h1 h2 h3 h4 h5 h6 h7
    have hne : nm.isEmpty = false :=
      Bool.eq_false_iff.mpr (fun h => h6 ((String.isEmpty_iff nm).mp h))
    simp only [evalPostfix, h1, h2, h3, h4, h5, h7]
    simp [hne]
  · intro fuel st st₁ st₂ st₃ b v h1 h2 h3 h4
    simp only [evalPostfix, h1, h2, h3, h4]
    simp [show ("" : String).isEmpty = true from rfl]

/-- C6 witness: both rules applied concretely: a bare `f` (bound as a
function, not followed by a parenthesis), and `v()` (a variable value called
as a function). -/
theorem c6_identifier_call_disambiguation_witness :
    evalPostfix 9 ⟨['f'], [("v", (1 : Int))], [("f", func_type.fn1 (fun x => x))],
        "", none⟩ =
      (none, ⟨[], [("v", (1 : Int))], [("f", func_type.fn1 (fun x => x))], "f",
        some errc.syntax_error⟩)
  ∧ evalPostfix 9 ⟨"v()".data, [("v", (1 : Int))],
        [("f", func_type.fn1 (fun x => x))], "", none⟩ =
      (none, ⟨[')'], [("v", (1 : Int))], [("f", func_type.fn1 (fun x => x))], "",
        some errc.syntax_error⟩) := by
  constructor
  · have h := c6_identifier_call_disambiguation.1 8
      ⟨['f'], [("v", (1 : Int))], [("f", func_type.fn1 (fun x => x))], "", none⟩
      ⟨[], [("v", (1 : Int))], [("f", func_type.fn1 (fun x => x))], "f",
        some errc.unknown_identifier⟩
      ⟨[], [("v", (1 : Int))], [("f", func_type.fn1 (fun x => x))], "f",
        some errc.unknown_identifier⟩
      ⟨[], [("v", (1 : Int))], [("f", func_type.fn1 (fun x => x))], "f",
        some errc.unknown_identifier⟩
      false "f" (func_type.fn1 (fun x => x)) rfl rfl rfl rfl rfl (by decide) rfl
    simpa using h
  · have h := c6_identifier_call_disambiguation.2.1 8
      ⟨"v()".data, [("v", (1 : Int))], [("f", func_type.fn1 (fun x => x))], "",
        none⟩
      ⟨"()".data, [("v", (1 : Int))], [("f", func_type.fn1 (fun x => x))], "",
        none⟩
      ⟨"()".data, [("v", (1 : Int))], [("f", func_type.fn1 (fun x => x))], "",
        none⟩
      ⟨[')'], [("v", (1 : Int))], [("f", func_type.fn1 (fun x => x))], "", none⟩
      true 1 rfl rfl rfl rfl
    simpa using h

/-! ### C7 -/

/-- C7: in the multiplicative loop, a `'/'` or `'%'` whose fully evaluated
right operand is `0` fails recording `divide_by_zero`, whatever the left
operand `res` is, and no division is performed (the result does not contain
one); concretely `1/0` and `1%0` (and variants) fail with `divide_by_zero`. -/
theorem c7_divide_by_zero :
    (∀ (fuel : Nat) (res : Int) (st st₁ st₂ st₃ : St) (op : Char),
      eat_ws st = (true, st₁) →
      consume_any ['*', '/', '%'] st₁ = (some op, st₂) →
      (op = '/' ∨ op = '%') →
      eval_unary fuel st₂ = (some 0, st₃) →
      muldivLoop (fuel + 1) res st =
        (none, { st₃ with last_errc := some errc.divide_by_zero }))
  ∧ evalS calc0 "1/0" = (none, some errc.divide_by_zero)
  ∧ evalS calc0 "1%0" = (none, some errc.divide_by_zero)
  ∧ evalS calc0 " 1 / 0 " = (none, some errc.divide_by_zero)
  ∧ evalS calc0 " 1 % 0 " = (none, some errc.divide_by_zero)
  ∧ evalS calc0 "-7 / 0" = (none, some errc.divide_by_zero)
  ∧ evalS calc0 "0 % 0" = (none, some errc.divide_by_zero) := by
  refine ⟨?_, by decide!, by decide!, by decide!, by decide!, by decide!,
    by decide!⟩
  intro fuel res st st₁ st₂ st₃ op h1 h2 hop h4
  rcases hop with rfl | rfl <;> simp [muldivLoop, h1, h2, h4]

/-- C7 witness: the divide-by-zero rule applied on the concrete loop state
for `1/0` right after the left operand `1` was read. -/
theorem c7_divide_by_zero_witness :
    muldivLoop 6 1 ⟨['/', '0'], [], [], "", none⟩ =
      (none, ⟨[], [], [], "", some errc.divide_by_zero⟩) := by
  have h := c7_divide_by_zero.1 5 1
    ⟨['/', '0'], [], [], "", none⟩
    ⟨['/', '0'], [], [], "", none⟩
    ⟨['0'], [], [], "", none⟩
    ⟨[], [], [], "", none⟩
    '/' rfl rfl (Or.inl rfl) rfl
  simpa using h

/-! ### Step lemmas for the grammar functions

One lemma per elementary step of the recursive evaluator, each taking the
inner calls' results as hypotheses; chains of these settle the remaining
claims without unfolding the whole recursion at once. -/

lemma eat_ws_of_cons (st : St) (c : Char) (rest : List Char)
    (hin : st.input = c :: rest) (h1 : c ≠ ' ') (h2 : c ≠ '\t') :
    eat_ws st = (true, st) := by
  obtain ⟨inp, vt, ft, li, le⟩ := st
  simp only at hin
  subst hin
  simp [eat_ws, skip_ws, h1, h2]

lemma eat_ws_of_nil (st : St) (hin : st.input = []) : eat_ws st = (false, st) := by
  obtain ⟨inp, vt, ft, li, le⟩ := st
  simp only at hin
  subst hin
  simp [eat_ws, skip_ws]

lemma consume_ch_of_neq (st : St) (c : Char) (rest : List Char) (ch : Char)
    (hin : st.input = c :: rest) (h : c ≠ ch) : consume_ch ch st = (false, st) := by
  simp [consume_ch, hin, h]

lemma consume_ch_of_nil (st : St) (ch : Char) (hin : st.input = []) :
    consume_ch ch st = (false, st) := by
  simp [consume_ch, hin]

lemma consume_any_of_not_mem (st : St) (c : Char) (rest : List Char)
    (chs : List Char) (hin : st.input = c :: rest) (h : c ∉ chs) :
    consume_any chs st = (none, st) := by
  simp [consume_any, hin, h]

lemma consume_any_of_mem (st : St) (c : Char) (rest : List Char)
    (chs : List Char) (hin : st.input = c :: rest) (h : c ∈ chs) :
    consume_any chs st = (some c, { st with input := rest }) := by
  simp [consume_any, hin, h]

lemma unarySigns_no_sign (fuel : Nat) (neg : Bool) (st : St) (c : Char)
    (rest : List Char) (hin : st.input = c :: rest) (h1 : c ≠ ' ')
    (h2 : c ≠ '\t') (h3 : c ≠ '+') (h4 : c ≠ '-') :
    unarySigns (fuel + 1) neg st = (some neg, st) := by
  simp only [unarySigns, eat_ws_of_cons st c rest hin h1 h2,
    consume_any_of_not_mem st c rest ['+', '-'] hin (by simp [h3, h4])]

lemma eval_unary_of (fuel : Nat) (st st₁ st₂ : St) (r : Option Int)
    (hs : unarySigns (fuel + 1) false st = (some false, st₁))
    (hp : evalPostfix fuel st₁ = (r, st₂)) :
    eval_unary (fuel + 1) st = (r, st₂) := by
  simp only [eval_unary, hs, hp]
  cases r <;> simp

lemma evalPostfix_value (fuel : Nat) (st st₁ st₂ : St) (b : Bool) (v : Int)
    (h1 : eval_primary fuel st = (some v, st₁))
    (h2 : eat_ws st₁ = (b, st₂))
    (h3 : consume_ch '(' st₂ = (false, st₂))
    (h4 : st₂.last_id = "") :
    evalPostfix (fuel + 1) st = (some v, st₂) := by
  simp only [evalPostfix, h1, h2, h3, h4]
  simp [show ("" : String).isEmpty = true from rfl]

lemma eval_primary_var (fuel : Nat) (st st' : St) (c : Char) (rest : List Char)
    (nm : String) (v : Int)
    (hin : st.input = c :: rest) (h1 : c ≠ ' ') (h2 : c ≠ '\t') (h3 : c ≠ '(')
    (hd : isdigit c = false)
    (hpid : parse_id st = (some nm, st'))
    (hv : map_find st'.vartbl nm = some v) :
    eval_primary (fuel + 1) st = (some v, { st' with last_id := "" }) := by
  simp only [eval_primary, eat_ws_of_cons st c rest hin h1 h2,
    consume_ch_of_neq st c rest '(' hin h3, hin, hd, hpid]
  simp [hv]

lemma eval_primary_int (fuel : Nat) (st : St) (c : Char) (rest : List Char)
    (hin : st.input = c :: rest) (h1 : c ≠ ' ') (h2 : c ≠ '\t') (h3 : c ≠ '(')
    (hd : isdigit c = true) :
    eval_primary (fuel + 1) st = parse_int st := by
  simp only [eval_primary, eat_ws_of_cons st c rest hin h1 h2,
    consume_ch_of_neq st c rest '(' hin h3, hin, hd]
  simp

lemma eval_muldiv_of (fuel : Nat) (st st₁ : St) (v : Int)
    (out : Option Int × St)
    (h1 : eval_unary fuel st = (some v, st₁))
    (h2 : muldivLoop fuel v st₁ = out) :
    eval_muldiv (fuel + 1) st = out := by
  simp only [eval_muldiv, h1, h2]

lemma eval_addsub_of (fuel : Nat) (st st₁ : St) (v : Int)
    (out : Option Int × St)
    (h1 : eval_muldiv fuel st = (some v, st₁))
    (h2 : addsubLoop fuel v st₁ = out) :
    eval_addsub (fuel + 1) st = out := by
  simp only [eval_addsub, h1, h2]

lemma muldivLoop_nil (fuel : Nat) (res : Int) (st : St) (hin : st.input = []) :
    muldivLoop (fuel + 1) res st = (some res, st) := by
  simp only [muldivLoop, eat_ws_of_nil st hin]

lemma addsubLoop_nil (fuel : Nat) (res : Int) (st : St) (hin : st.input = []) :
    addsubLoop (fuel + 1) res st = (some res, st) := by
  simp only [addsubLoop, eat_ws_of_nil st hin]

lemma muldivLoop_step (fuel : Nat) (res : Int) (st st₁ st₂ st₃ : St)
    (op : Char) (rhs : Int)
    (h1 : eat_ws st = (true, st₁))
    (h2 : consume_any ['*', '/', '%'] st₁ = (some op, st₂))
    (h3 : eval_unary fuel st₂ = (some rhs, st₃)) :
    muldivLoop (fuel + 1) res st =
      if op = '*' then muldivLoop fuel (res * rhs) st₃
      else if rhs = 0 then
        (none, { st₃ with last_errc := some errc.divide_by_zero })
      else if op = '/' then muldivLoop fuel (res.tdiv rhs) st₃
      else muldivLoop fuel (res.tmod rhs) st₃ := by
  simp only [muldivLoop, h1, h2, h3]

lemma eval_some_of_addsub (c : Calc) (expr : List Char) (v : Int) (st' : St)
    (h1 : eval_addsub (fuel0 expr) ⟨expr, c.vartbl, c.functbl, "", none⟩ =
      (some v, st'))
    (h2 : st'.input = []) :
    eval c expr = (some v, none) := by
  simp only [eval, h1, eat_ws_of_nil st' h2]
  simp

lemma eval_none_of_addsub (c : Calc) (expr : List Char) (st' : St)
    (h1 : eval_addsub (fuel0 expr) ⟨expr, c.vartbl, c.functbl, "", none⟩ =
      (none, st')) :
    eval c expr =
      (none, some (match st'.last_errc with
        | some e => e
        | none => errc.syntax_error)) := by
  rcases hws : eat_ws st' with ⟨ws, st''⟩
  have hle : st''.last_errc = st'.last_errc := by
    have : st'' = (eat_ws st').2 := by rw [hws]
    rw [this]
    rfl
  simp only [eval, h1, hws]
  cases ws <;> simp [hle]

/-! ### C8 -/

lemma natAbs_tmod_eq (a b : Int) : (a.tmod b).natAbs = a.natAbs % b.natAbs := by
  cases a <;> cases b <;> simp only [Int.tmod, Int.natAbs_neg] <;> rfl

lemma tmod_nonpos_of_nonpos (a b : Int) (h : a ≤ 0) : a.tmod b ≤ 0 := by
  cases a with
  | ofNat m =>
    have hm : m = 0 := by
      simp only [Int.ofNat_eq_coe] at h
      omega
    subst hm
    simp
  | negSucc m =>
    cases b <;> simp only [Int.tmod] <;>
      exact Int.neg_nonpos_of_nonneg (Int.ofNat_nonneg _)

lemma c8_div_chain (a b : Int) (hb : b ≠ 0) (m : Nat) :
    eval_addsub (m + 6) ⟨['a', '/', 'b'], [("a", a), ("b", b)], [], "", none⟩ =
      (some (a.tdiv b), ⟨[], [("a", a), ("b", b)], [], "", none⟩) := by
  have e1 : eval_primary (m + 2)
      ⟨['a', '/', 'b'], [("a", a), ("b", b)], [], "", none⟩ =
      (some a, ⟨['/', 'b'], [("a", a), ("b", b)], [], "", none⟩) :=
    eval_primary_var (m + 1) _ ⟨['/', 'b'], [("a", a), ("b", b)], [], "", none⟩
      'a' ['/', 'b'] "a" a rfl (by decide) (by decide) (by decide) (by decide)
      rfl (by simp [map_find])
  have e2 : evalPostfix (m + 3)
      ⟨['a', '/', 'b'], [("a", a), ("b", b)], [], "", none⟩ =
      (some a, ⟨['/', 'b'], [("a", a), ("b", b)], [], "", none⟩) :=
    evalPostfix_value (m + 2) _ _ _ true a e1
      (eat_ws_of_cons _ '/' ['b'] rfl (by decide) (by decide))
      (consume_ch_of_neq _ '/' ['b'] '(' rfl (by decide)) rfl
  have e3 : eval_unary (m + 4)
      ⟨['a', '/', 'b'], [("a", a), ("b", b)], [], "", none⟩ =
      (some a, ⟨['/', 'b'], [("a", a), ("b", b)], [], "", none⟩) :=
    eval_unary_of (m + 3) _ _ _ (some a)
      (unarySigns_no_sign (m + 3) false _ 'a' ['/', 'b'] rfl (by decide)
        (by decide) (by decide) (by decide)) e2
  have f1 : eval_primary (m + 1)
      ⟨['b'], [("a", a), ("b", b)], [], "", none⟩ =
      (some b, ⟨[], [("a", a), ("b", b)], [], "", none⟩) :=
    eval_primary_var m _ ⟨[], [("a", a), ("b", b)], [], "", none⟩
      'b' [] "b" b rfl (by decide) (by decide) (by decide) (by decide)
      rfl (by simp [map_find])
  have f2 : evalPostfix (m + 2)
      ⟨['b'], [("a", a), ("b", b)], [], "", none⟩ =
      (some b, ⟨[], [("a", a), ("b", b)], [], "", none⟩) :=
    evalPostfix_value (m + 1) _ _ _ false b f1
      (eat_ws_of_nil _ rfl) (consume_ch_of_nil _ '(' rfl) rfl
  have f3 : eval_unary (m + 3)
      ⟨['b'], [("a", a), ("b", b)], [], "", none⟩ =
      (some b, ⟨[], [("a", a), ("b", b)], [], "", none⟩) :=
    eval_unary_of (m + 2) _ _ _ (some b)
      (unarySigns_no_sign (m + 2) false _ 'b' [] rfl (by decide)
        (by decide) (by decide) (by decide)) f2
  have g1 : muldivLoop (m + 4) a
      ⟨['/', 'b'], [("a", a), ("b", b)], [], "", none⟩ =
      (some (a.tdiv b), ⟨[], [("a", a), ("b", b)], [], "", none⟩) := by
    rw [muldivLoop_step (m + 3) a _ _ _ _ '/' b
      (eat_ws_of_cons _ '/' ['b'] rfl (by decide) (by decide))
      (consume_any_of_mem _ '/' ['b'] ['*', '/', '%'] rfl (by decide)) f3]
    simp only [reduceIte, hb, if_false]
    exact muldivLoop_nil (m + 2) (a.tdiv b)
      ⟨[], [("a", a), ("b", b)], [], "", none⟩ rfl
  have g2 : eval_muldiv (m + 5)
      ⟨['a', '/', 'b'], [("a", a), ("b", b)], [], "", none⟩ =
      (some (a.tdiv b), ⟨[], [("a", a), ("b", b)], [], "", none⟩) :=
    eval_muldiv_of (m + 4) _ _ a _ e3 g1
  exact eval_addsub_of (m + 5) _ _ (a.tdiv b) _ g2
    (addsubLoop_nil (m + 4) _ _ rfl)

lemma c8_mod_chain (a b : Int) (hb : b ≠ 0) (m : Nat) :
    eval_addsub (m + 6) ⟨['a', '%', 'b'], [("a", a), ("b", b)], [], "", none⟩ =
      (some (a.tmod b), ⟨[], [("a", a), ("b", b)], [], "", none⟩) := by
  have e1 : eval_primary (m + 2)
      ⟨['a', '%', 'b'], [("a", a), ("b", b)], [], "", none⟩ =
      (some a, ⟨['%', 'b'], [("a", a), ("b", b)], [], "", none⟩) :=
    eval_primary_var (m + 1) _ ⟨['%', 'b'], [("a", a), ("b", b)], [], "", none⟩
      'a' ['%', 'b'] "a" a rfl (by decide) (by decide) (by decide) (by decide)
      rfl (by simp [map_find])
  have e2 : evalPostfix (m + 3)
      ⟨['a', '%', 'b'], [("a", a), ("b", b)], [], "", none⟩ =
      (some a, ⟨['%', 'b'], [("a", a), ("b", b)], [], "", none⟩) :=
    evalPostfix_value (m + 2) _ _ _ true a e1
      (eat_ws_of_cons _ '%' ['b'] rfl (by decide) (by decide))
      (consume_ch_of_neq _ '%' ['b'] '(' rfl (by decide)) rfl
  have e3 : eval_unary (m + 4)
      ⟨['a', '%', 'b'], [("a", a), ("b", b)], [], "", none⟩ =
      (some a, ⟨['%', 'b'], [("a", a), ("b", b)], [], "", none⟩) :=
    eval_unary_of (m + 3) _ _ _ (some a)
      (unarySigns_no_sign (m + 3) false _ 'a' ['%', 'b'] rfl (by decide)
        (by decide) (by decide) (by decide)) e2
  have f1 : eval_primary (m + 1)
      ⟨['b'], [("a", a), ("b", b)], [], "", none⟩ =
      (some b, ⟨[], [("a", a), ("b", b)], [], "", none⟩) :=
    eval_primary_var m _ ⟨[], [("a", a), ("b", b)], [], "", none⟩
      'b' [] "b" b rfl (by decide) (by decide) (by decide) (by decide)
      rfl (by simp [map_find])
  have f2 : evalPostfix (m + 2)
      ⟨['b'], [("a", a), ("b", b)], [], "", none⟩ =
      (some b, ⟨[], [("a", a), ("b", b)], [], "", none⟩) :=
    evalPostfix_value (m + 1) _ _ _ false b f1
      (eat_ws_of_nil _ rfl) (consume_ch_of_nil _ '(' rfl) rfl
  have f3 : eval_unary (m + 3)
      ⟨['b'], [("a", a), ("b", b)], [], "", none⟩ =
      (some b, ⟨[], [("a", a), ("b", b)], [], "", none⟩) :=
    eval_unary_of (m + 2) _ _ _ (some b)
      (unarySigns_no_sign (m + 2) false _ 'b' [] rfl (by decide)
        (by decide) (by decide) (by decide)) f2
  have g1 : muldivLoop (m + 4) a
      ⟨['%', 'b'], [("a", a), ("b", b)], [], "", none⟩ =
      (some (a.tmod b), ⟨[], [("a", a), ("b", b)], [], "", none⟩) := by
    rw [muldivLoop_step (m + 3) a _ _ _ _ '%' b
      (eat_ws_of_cons _ '%' ['b'] rfl (by decide) (by decide))
      (consume_any_of_mem _ '%' ['b'] ['*', '/', '%'] rfl (by decide)) f3]
    simp only [reduceIte, hb, if_false]
    exact muldivLoop_nil (m + 2) (a.tmod b)
      ⟨[], [("a", a), ("b", b)], [], "", none⟩ rfl
  have g2 : eval_muldiv (m + 5)
      ⟨['a', '%', 'b'], [("a", a), ("b", b)], [], "", none⟩ =
      (some (a.tmod b), ⟨[], [("a", a), ("b", b)], [], "", none⟩) :=
    eval_muldiv_of (m + 4) _ _ a _ e3 g1
  exact eval_addsub_of (m + 5) _ _ (a.tmod b) _ g2
    (addsubLoop_nil (m + 4) _ _ rfl)

/-- C8: `/` and `%` are the native truncating operators: for variables
`a`, `b` with `b ≠ 0`, `a/b` evaluates to `Int.tdiv a b` and `a%b` to
`Int.tmod a b`, which agree in rounding (`b * (a tdiv b) + a tmod b = a`),
truncate toward zero (`|a tdiv b| = |a|/|b|`, `|a tmod b| = |a| mod |b|`),
and give the remainder the sign of the dividend; concretely
`7 / -3 = -2`, `-7 % 3 = -1`, `-7 % -3 = -1`. -/
theorem c8_truncating_division :
    (∀ a b : Int, b ≠ 0 →
      eval ⟨[("a", a), ("b", b)], []⟩ ['a', '/', 'b'] =
        (some (a.tdiv b), none) ∧
      eval ⟨[("a", a), ("b", b)], []⟩ ['a', '%', 'b'] =
        (some (a.tmod b), none) ∧
      b * a.tdiv b + a.tmod b = a ∧
      (a.tdiv b).natAbs = a.natAbs / b.natAbs ∧
      (a.tmod b).natAbs = a.natAbs % b.natAbs ∧
      (0 ≤ a → 0 ≤ a.tmod b) ∧
      (a ≤ 0 → a.tmod b ≤ 0))
  ∧ evalS calc0 "7 / -3" = (some (-2), none)
  ∧ evalS calc0 "-7 % 3" = (some (-1), none)
  ∧ evalS calc0 "-7 % -3" = (some (-1), none)
  ∧ evalS calc0 " 7 / 3 " = (some 2, none)
  ∧ evalS calc0 " -7 / 3 " = (some (-2), none)
  ∧ evalS calc0 " -7 / -3 " = (some 2, none)
  ∧ evalS calc0 " 7 % -3 " = (some 1, none) := by
  refine ⟨?_, by decide!, by decide!, by decide!, by decide!, by decide!,
    by decide!, by decide!⟩
  intro a b hb
  refine ⟨?_, ?_, Int.tdiv_add_tmod a b, Int.natAbs_tdiv a b,
    natAbs_tmod_eq a b, fun h => Int.tmod_nonneg b h,
    tmod_nonpos_of_nonpos a b⟩
  · refine eval_some_of_addsub ⟨[("a", a), ("b", b)], []⟩ _ _
      ⟨[], [("a", a), ("b", b)], [], "", none⟩ ?_ rfl
    have h := c8_div_chain a b hb 58
    rw [show fuel0 ['a', '/', 'b'] = 58 + 6 from by norm_num [fuel0]]
    exact h
  · refine eval_some_of_addsub ⟨[("a", a), ("b", b)], []⟩ _ _
      ⟨[], [("a", a), ("b", b)], [], "", none⟩ ?_ rfl
    have h := c8_mod_chain a b hb 58
    rw [show fuel0 ['a', '%', 'b'] = 58 + 6 from by norm_num [fuel0]]
    exact h

/-- C8 witness: the general statement applied at `a = -7`, `b = 3`. -/
theorem c8_truncating_division_witness :
    eval ⟨[("a", (-7 : Int)), ("b", (3 : Int))], []⟩ ['a', '%', 'b'] =
      (some (-1), none) := by
  have h := (c8_truncating_division.1 (-7) 3 (by decide)).2.1
  rw [show ((-7 : Int).tmod 3) = -1 from by decide] at h
  exact h

/-! ### C10 -/

lemma skip_ws_of_all_ws (l : List Char) (h : ∀ c ∈ l, c = ' ' ∨ c = '\t') :
    skip_ws l = [] := by
  induction l with
  | nil => rfl
  | cons c cs ih =>
    have hc := h c (by simp)
    simp only [skip_ws, hc, if_true]
    exact ih fun x hx => h x (by simp [hx])

lemma eval_addsub_ws_only (m : Nat) (st : St) (hsk : skip_ws st.input = []) :
    eval_addsub (m + 3) st = (none, { st with input := [] }) := by
  have he : eat_ws st = (false, { st with input := [] }) := by
    simp [eat_ws, hsk]
  simp only [eval_addsub, eval_muldiv, eval_unary, unarySigns, he]

/-- C10: evaluating an empty or whitespace-only (spaces and horizontal tabs)
expression yields no value and reports `syntax_error`. -/
theorem c10_empty_input (c : Calc) (chars : List Char)
    (hws : ∀ ch ∈ chars, ch = ' ' ∨ ch = '\t') :
    eval c chars = (none, some errc.syntax_error) := by
  obtain ⟨m, hm⟩ : ∃ m, fuel0 chars = m + 3 :=
    ⟨16 * (chars.length + 1) - 3, by simp only [fuel0]; omega⟩
  have h1 : eval_addsub (fuel0 chars) ⟨chars, c.vartbl, c.functbl, "", none⟩ =
      (none, ⟨[], c.vartbl, c.functbl, "", none⟩) := by
    rw [hm]
    exact eval_addsub_ws_only m _ (skip_ws_of_all_ws chars hws)
  simpa using eval_none_of_addsub c chars _ h1

/-! ### C9 -/

lemma ne_of_isdigit (c x : Char) (h : isdigit c = true) (hx : isdigit x = false) :
    c ≠ x := by
  intro he
  subst he
  rw [h] at hx
  cases hx

lemma digitsAux_append (b : Nat) :
    ∀ (f n : Nat) (acc : List Char),
      digitsAux b f n acc = digitsAux b f n [] ++ acc := by
  intro f
  induction f with
  | zero => intro n acc; simp [digitsAux]
  | succ f ih =>
    intro n acc
    by_cases hn : n = 0
    · simp [digitsAux, hn]
    · simp only [digitsAux, hn, if_false]
      rw [ih (n / b) [natDigitChar (n % b)], ih (n / b) (natDigitChar (n % b) :: acc)]
      simp

lemma digitsAux_all (b : Nat) (hb : 2 ≤ b)
    (hv : ∀ d, d < b → isBaseDigit b (natDigitChar d) = true) :
    ∀ (f n : Nat) (acc : List Char),
      (∀ ch ∈ acc, isBaseDigit b ch = true) →
      ∀ ch ∈ digitsAux b f n acc, isBaseDigit b ch = true := by
  intro f
  induction f with
  | zero => intro n acc hacc; simpa [digitsAux] using hacc
  | succ f ih =>
    intro n acc hacc
    by_cases hn : n = 0
    · simpa [digitsAux, hn] using hacc
    · simp only [digitsAux, hn, if_false]
      refine ih (n / b) _ ?_
      intro ch hch
      rcases List.mem_cons.mp hch with rfl | hch
      · exact hv _ (Nat.mod_lt _ (by omega))
      · exact hacc ch hch

lemma digitsAux_foldl (b : Nat) (hb : 2 ≤ b)
    (hd : ∀ d, d < b → digitVal (natDigitChar d) = d) :
    ∀ (f n : Nat), n ≤ f → ∀ a : Nat,
      (digitsAux b f n []).foldl (fun x ch => x * b + digitVal ch) a =
        a * b ^ (digitsAux b f n []).length + n := by
  intro f
  induction f with
  | zero =>
    intro n hn a
    have : n = 0 := by omega
    subst this
    simp [digitsAux]
  | succ f ih =>
    intro n hn a
    by_cases hz : n = 0
    · subst hz; simp [digitsAux]
    · have hrec : digitsAux b (f + 1) n [] =
          digitsAux b f (n / b) [] ++ [natDigitChar (n % b)] := by
        simp only [digitsAux, hz, if_false]
        exact digitsAux_append b f (n / b) [natDigitChar (n % b)]
      have hdiv : n / b ≤ f := by
        have h1 : n / b < n := Nat.div_lt_self (Nat.pos_of_ne_zero hz) (by omega)
        omega
      rw [hrec, List.foldl_append, List.length_append]
      rw [ih (n / b) hdiv a]
      simp only [List.foldl_cons, List.foldl_nil, List.length_cons,
        List.length_nil]
      rw [hd (n % b) (Nat.mod_lt _ (by omega))]
      have hdm : n / b * b + n % b = n := Nat.div_add_mod' n b
      calc (a * b ^ (digitsAux b f (n / b) []).length + n / b) * b + n % b
          = a * (b ^ (digitsAux b f (n / b) []).length * b) +
              (n / b * b + n % b) := by ring
        _ = a * b ^ ((digitsAux b f (n / b) []).length + (0 + 1)) + n := by
              rw [hdm]
              ring

lemma natRepr_ne_nil (b n : Nat) : natRepr b n ≠ [] := by
  unfold natRepr
  by_cases hn : n = 0
  · simp [hn]
  · simp only [hn, if_false]
    obtain ⟨k, hk⟩ : ∃ k, n = k + 1 := ⟨n - 1, by omega⟩
    rw [hk]
    simp only [digitsAux, Nat.add_eq_zero, and_false, if_false]
    rw [digitsAux_append]
    simp

lemma natRepr_all (b : Nat) (hb : 2 ≤ b)
    (hv : ∀ d, d < b → isBaseDigit b (natDigitChar d) = true) (n : Nat) :
    ∀ ch ∈ natRepr b n, isBaseDigit b ch = true := by
  unfold natRepr
  by_cases hn : n = 0
  · simp only [hn, if_true]
    intro ch hch
    rcases List.mem_singleton.mp hch with rfl
    have h0 := hv 0 (by omega)
    simpa [natDigitChar] using h0
  · simp only [hn, if_false]
    exact digitsAux_all b hb hv n n [] (by simp)

lemma natRepr_foldl (b : Nat) (hb : 2 ≤ b)
    (hd : ∀ d, d < b → digitVal (natDigitChar d) = d) (n : Nat) :
    (natRepr b n).foldl (fun x ch => x * b + digitVal ch) 0 = n := by
  unfold natRepr
  by_cases hn : n = 0
  · simp only [hn, if_true]
    have h0 := hd 0 (by omega)
    simp only [List.foldl_cons, List.foldl_nil]
    simpa [natDigitChar] using h0
  · simp only [hn, if_false]
    rw [digitsAux_foldl b hb hd n n (Nat.le_refl n) 0]
    simp

lemma isBaseDigit_minus (b : Nat) : isBaseDigit b '-' = false := by
  simp [isBaseDigit, isdigit]

lemma isdigit_of_isBaseDigit_10 (c : Char) (h : isBaseDigit 10 c = true) :
    isdigit c = true := by
  have hfalse : ∀ x : Nat, (10 + x < 10) = False := fun x => eq_false (by omega)
  simp only [isBaseDigit, hfalse, decide_False, Bool.and_false,
    Bool.or_false] at h
  rw [Bool.and_eq_true] at h
  exact h.1

lemma from_chars_digits (b : Nat) (st : St) (ds : List Char)
    (hin : st.input = ds) (hne : ds ≠ [])
    (hall : ∀ ch ∈ ds, isBaseDigit b ch = true) :
    from_chars b st =
      (some (Int.ofNat (ds.foldl (fun a ch => a * b + digitVal ch) 0)),
       { st with input := [] }) := by
  have hh : ¬(st.input.head? = some '-') := by
    rw [hin]
    cases ds with
    | nil => simp
    | cons c cs =>
      simp only [List.head?_cons, Option.some_inj]
      intro hc
      have := hall c (by simp)
      rw [hc, isBaseDigit_minus] at this
      cases this
  have htw : ds.takeWhile (isBaseDigit b) = ds :=
    List.takeWhile_eq_self_iff.mpr hall
  have hdw : ds.dropWhile (isBaseDigit b) = [] :=
    List.dropWhile_eq_nil_iff.mpr hall
  unfold from_chars
  rw [if_neg hh]
  simp only [hin, htw, hdw]
  simp [List.isEmpty_iff, hne]

lemma parse_int_dec (st : St) (n : Nat) (hin : st.input = natRepr 10 n) :
    parse_int st = (some (Int.ofNat n), { st with input := [] }) := by
  have hdig : ∀ ch ∈ natRepr 10 n, isdigit ch = true := fun ch hch =>
    isdigit_of_isBaseDigit_10 ch (natRepr_all 10 (by omega) (by decide) n ch hch)
  have hpre : ∀ p : Char, isdigit p = false →
      consume_str ['0', p] st = (false, st) := by
    intro p hp
    unfold consume_str
    rw [hin]
    have : strPrefix ['0', p] (natRepr 10 n) = none := by
      cases hrep : natRepr 10 n with
      | nil => rfl
      | cons c cs =>
        simp only [strPrefix]
        by_cases hc : c = '0'
        · rw [if_pos hc]
          cases cs with
          | nil => rfl
          | cons c2 cs2 =>
            simp only [strPrefix]
            rw [if_neg]
            exact ne_of_isdigit c2 p (hdig c2 (by rw [hrep]; simp)) hp
        · rw [if_neg hc]
    rw [this]
  unfold parse_int
  simp only [hpre 'x' (by decide), hpre 'X' (by decide), hpre 'b' (by decide),
    hpre 'B' (by decide),
    from_chars_digits 10 st (natRepr 10 n) hin (natRepr_ne_nil 10 n)
      (natRepr_all 10 (by omega) (by decide) n)]
  simp [natRepr_foldl 10 (by omega) (by decide) n]

lemma parse_int_0x (st : St) (n : Nat)
    (hin : st.input = '0' :: 'x' :: natRepr 16 n) :
    parse_int st = (some (Int.ofNat n), { st with input := [] }) := by
  have hx : consume_str ['0', 'x'] st =
      (true, { st with input := natRepr 16 n }) := by
    simp [consume_str, strPrefix, hin]
  unfold parse_int
  simp only [hx,
    from_chars_digits 16 { st with input := natRepr 16 n } (natRepr 16 n) rfl
      (natRepr_ne_nil 16 n) (natRepr_all 16 (by omega) (by decide) n)]
  simp [natRepr_foldl 16 (by omega) (by decide) n]

lemma parse_int_0X (st : St) (n : Nat)
    (hin : st.input = '0' :: 'X' :: natRepr 16 n) :
    parse_int st = (some (Int.ofNat n), { st with input := [] }) := by
  have hx : consume_str ['0', 'x'] st = (false, st) := by
    simp [consume_str, strPrefix, hin]
  have hX : consume_str ['0', 'X'] st =
      (true, { st with input := natRepr 16 n }) := by
    simp [consume_str, strPrefix, hin]
  unfold parse_int
  simp only [hx, hX,
    from_chars_digits 16 { st with input := natRepr 16 n } (natRepr 16 n) rfl
      (natRepr_ne_nil 16 n) (natRepr_all 16 (by omega) (by decide) n)]
  simp [natRepr_foldl 16 (by omega) (by decide) n]

lemma parse_int_0b (st : St) (n : Nat)
    (hin : st.input = '0' :: 'b' :: natRepr 2 n) :
    parse_int st = (some (Int.ofNat n), { st with input := [] }) := by
  have hx : consume_str ['0', 'x'] st = (false, st) := by
    simp [consume_str, strPrefix, hin]
  have hX : consume_str ['0', 'X'] st = (false, st) := by
    simp [consume_str, strPrefix, hin]
  have hbp : consume_str ['0', 'b'] st =
      (true, { st with input := natRepr 2 n }) := by
    simp [consume_str, strPrefix, hin]
  unfold parse_int
  simp only [hx, hX, hbp,
    from_chars_digits 2 { st with input := natRepr 2 n } (natRepr 2 n) rfl
      (natRepr_ne_nil 2 n) (natRepr_all 2 (by omega) (by decide) n)]
  simp [natRepr_foldl 2 (by omega) (by decide) n]

lemma parse_int_0B (st : St) (n : Nat)
    (hin : st.input = '0' :: 'B' :: natRepr 2 n) :
    parse_int st = (some (Int.ofNat n), { st with input := [] }) := by
  have hx : consume_str ['0', 'x'] st = (false, st) := by
    simp [consume_str, strPrefix, hin]
  have hX : consume_str ['0', 'X'] st = (false, st) := by
    simp [consume_str, strPrefix, hin]
  have hbp : consume_str ['0', 'b'] st = (false, st) := by
    simp [consume_str, strPrefix, hin]
  have hB : consume_str ['0', 'B'] st =
      (true, { st with input := natRepr 2 n }) := by
    simp [consume_str, strPrefix, hin]
  unfold parse_int
  simp only [hx, hX, hbp, hB,
    from_chars_digits 2 { st with input := natRepr 2 n } (natRepr 2 n) rfl
      (natRepr_ne_nil 2 n) (natRepr_all 2 (by omega) (by decide) n)]
  simp [natRepr_foldl 2 (by omega) (by decide) n]

lemma eval_addsub_literal (m : Nat) (st : St) (c : Char) (rest : List Char)
    (v : Int) (hin : st.input = c :: rest) (hd : isdigit c = true)
    (hid : st.last_id = "")
    (hpi : parse_int st = (some v, { st with input := [] })) :
    eval_addsub (m + 6) st = (some v, { st with input := [] }) := by
  have hsp : c ≠ ' ' := ne_of_isdigit c ' ' hd (by decide)
  have htb : c ≠ '\t' := ne_of_isdigit c '\t' hd (by decide)
  have hpa : c ≠ '(' := ne_of_isdigit c '(' hd (by decide)
  have hpl : c ≠ '+' := ne_of_isdigit c '+' hd (by decide)
  have hmi : c ≠ '-' := ne_of_isdigit c '-' hd (by decide)
  have e1 : eval_primary (m + 2) st = (some v, { st with input := [] }) := by
    rw [eval_primary_int (m + 1) st c rest hin hsp htb hpa hd]
    exact hpi
  have e2 : evalPostfix (m + 3) st = (some v, { st with input := [] }) :=
    evalPostfix_value (m + 2) st _ _ false v e1
      (eat_ws_of_nil _ rfl) (consume_ch_of_nil _ '(' rfl) hid
  have e3 : eval_unary (m + 4) st = (some v, { st with input := [] }) :=
    eval_unary_of (m + 3) st st _ (some v)
      (unarySigns_no_sign (m + 3) false st c rest hin hsp htb hpl hmi) e2
  have e4 : eval_muldiv (m + 5) st = (some v, { st with input := [] }) :=
    eval_muldiv_of (m + 4) st _ v _ e3
      (muldivLoop_nil (m + 3) v { st with input := [] } rfl)
  exact eval_addsub_of (m + 5) st _ v _ e4
    (addsubLoop_nil (m + 4) v { st with input := [] } rfl)

lemma c9_eval_dec (c : Calc) (L : Nat) :
    eval c (natRepr 10 L) = (some (L : Int), none) := by
  obtain ⟨m, hm⟩ : ∃ m, fuel0 (natRepr 10 L) = m + 6 :=
    ⟨16 * ((natRepr 10 L).length + 1) - 6, by simp only [fuel0]; omega⟩
  obtain ⟨c0, rest, hrep⟩ : ∃ c0 rest, natRepr 10 L = c0 :: rest := by
    cases h : natRepr 10 L with
    | nil => exact absurd h (natRepr_ne_nil 10 L)
    | cons a l => exact ⟨a, l, rfl⟩
  have hd : isdigit c0 = true :=
    isdigit_of_isBaseDigit_10 c0
      (natRepr_all 10 (by omega) (by decide) L c0 (by rw [hrep]; simp))
  refine eval_some_of_addsub c (natRepr 10 L) (L : Int)
    ⟨[], c.vartbl, c.functbl, "", none⟩ ?_ rfl
  rw [hm]
  exact eval_addsub_literal m ⟨natRepr 10 L, c.vartbl, c.functbl, "", none⟩
    c0 rest (L : Int) hrep hd rfl
    (parse_int_dec ⟨natRepr 10 L, c.vartbl, c.functbl, "", none⟩ L rfl)

lemma c9_eval_prefixed (c : Calc) (L : Nat) (p : Char) (b : Nat)
    (hpi : ∀ st : St, st.input = '0' :: p :: natRepr b L →
      parse_int st = (some (Int.ofNat L), { st with input := [] })) :
    eval c ('0' :: p :: natRepr b L) = (some (L : Int), none) := by
  obtain ⟨m, hm⟩ : ∃ m, fuel0 ('0' :: p :: natRepr b L) = m + 6 :=
    ⟨16 * (('0' :: p :: natRepr b L).length + 1) - 6, by
      simp only [fuel0]; omega⟩
  refine eval_some_of_addsub c ('0' :: p :: natRepr b L) (L : Int)
    ⟨[], c.vartbl, c.functbl, "", none⟩ ?_ rfl
  rw [hm]
  exact eval_addsub_literal m
    ⟨'0' :: p :: natRepr b L, c.vartbl, c.functbl, "", none⟩
    '0' (p :: natRepr b L) (L : Int) rfl (by decide) rfl
    (hpi ⟨'0' :: p :: natRepr b L, c.vartbl, c.functbl, "", none⟩ rfl)

/-- C9: literal round-trip.  For every `L : Nat` (the value type is modelled
unbounded, so every non-negative value is representable) and any symbol
tables, evaluating the decimal digit string of `L` yields `L`; so does
`0x`/`0X` followed by its hexadecimal digit string and `0b`/`0B` followed by
its binary digit string; and the bare string `"0"` is decimal zero. -/
theorem c9_literal_roundtrip (c : Calc) (L : Nat) :
    eval c (natRepr 10 L) = (some (L : Int), none)
  ∧ eval c ('0' :: 'x' :: natRepr 16 L) = (some (L : Int), none)
  ∧ eval c ('0' :: 'X' :: natRepr 16 L) = (some (L : Int), none)
  ∧ eval c ('0' :: 'b' :: natRepr 2 L) = (some (L : Int), none)
  ∧ eval c ('0' :: 'B' :: natRepr 2 L) = (some (L : Int), none)
  ∧ eval c ['0'] = (some (0 : Int), none) :=
  ⟨c9_eval_dec c L,
   c9_eval_prefixed c L 'x' 16 (fun st h => parse_int_0x st L h),
   c9_eval_prefixed c L 'X' 16 (fun st h => parse_int_0X st L h),
   c9_eval_prefixed c L 'b' 2 (fun st h => parse_int_0b st L h),
   c9_eval_prefixed c L 'B' 2 (fun st h => parse_int_0B st L h),
   c9_eval_dec c 0⟩

/-- C9 witness: the round-trip at the concrete value 42. -/
theorem c9_literal_roundtrip_witness :
    eval calc0 (natRepr 10 42) = (some (42 : Int), none) ∧
    eval calc0 ('0' :: 'x' :: natRepr 16 42) = (some (42 : Int), none) :=
  ⟨(c9_literal_roundtrip calc0 42).1, (c9_literal_roundtrip calc0 42).2.1⟩

/-- C10 witness: the empty input and a whitespace-only input. -/
theorem c10_empty_input_witness :
    eval calc0 [] = (none, some errc.syntax_error) ∧
    eval calc0 [' ', '\t', ' '] = (none, some errc.syntax_error) :=
  ⟨c10_empty_input calc0 [] (by decide),
   c10_empty_input calc0 [' ', '\t', ' '] (by decide)⟩

end Tecalc
